import Mathlib

/-!
Verification of a Japanese text-to-speech study player.

The development embeds the program's data model and operations:
the WAV container encoder (`pcmToWav`), the segment mapper built in the
`Player` component (`playerSegments`), the playback handlers
(`handleEnded`, `handleWordClick`, `isSegmentActive`, `handleTimeUpdate`,
the repeat-menu click), and the history store logic inlined in
`handleGenerate` (`createOrUpdate`).  JavaScript numbers used as times
and rates are modelled as rationals; byte buffers as lists of naturals;
machine truncation of `DataView.setUint32`/`setUint16` is explicit
(`% 2^32`, `% 2^16`).
-/

/-- Analyzer token: a surface form with an optional Hiragana reading
(`Token` in the source's types module). -/
structure Token where
  surface : String
  reading : Option String
deriving Repr, DecidableEq

/-- One item yielded by the platform's locale-aware word segmenter
(the shape of `Intl.Segmenter` results consumed by the fallback path). -/
structure RawSeg where
  segment : String
  index : Nat
  input : String
  isWordLike : Bool
deriving Repr, DecidableEq

/-- Display segment (`Segment` in the source's types module). -/
structure Segment where
  segment : String
  reading : Option String
  index : Nat
  input : String
  isWordLike : Bool
  startCharIndex : Nat
  endCharIndex : Nat
deriving Repr, DecidableEq

/-- Token path of the `segments` useMemo: walk the analyzer tokens in
order, accumulating the running character index. -/
def tokenSegsFrom : List Token → Nat → Nat → List Segment
  | [], _, _ => []
  | t :: ts, charIndex, idx =>
      { segment := t.surface, reading := t.reading, index := idx,
        input := t.surface, isWordLike := true,
        startCharIndex := charIndex,
        endCharIndex := charIndex + t.surface.length } ::
        tokenSegsFrom ts (charIndex + t.surface.length) (idx + 1)

/-- Fallback path of the `segments` useMemo: walk the word-segmenter
output in order, accumulating the running character index. -/
def fallbackSegsFrom : List RawSeg → Nat → List Segment
  | [], _ => []
  | r :: rs, charIndex =>
      { segment := r.segment, reading := none, index := r.index,
        input := r.input, isWordLike := r.isWordLike,
        startCharIndex := charIndex,
        endCharIndex := charIndex + r.segment.length } ::
        fallbackSegsFrom rs (charIndex + r.segment.length)

/-- Code reached when the token path does not fire: empty text yields no
segments, a platform without the word segmenter yields one segment that
spans the whole text, and otherwise the segmenter output is walked. -/
def fallbackSegments (text : String)
    (segmenter : Option (String → List RawSeg)) : List Segment :=
  if text.isEmpty then []
  else
    match segmenter with
    | none => [{ segment := text, reading := none, index := 0,
                 input := text, isWordLike := true,
                 startCharIndex := 0, endCharIndex := text.length }]
    | some f => fallbackSegsFrom (f text) 0

/-- The `segments` useMemo of the Player component.  `segmenter` models
the environment capability `Intl.Segmenter` (`none` when the platform
lacks it); when present it maps the text to its raw word segments. -/
def playerSegments (text : String) (tokens : Option (List Token))
    (segmenter : Option (String → List RawSeg)) : List Segment :=
  match tokens with
  | some ts =>
      if 0 < ts.length then tokenSegsFrom ts 0 0
      else fallbackSegments text segmenter
  | none => fallbackSegments text segmenter

/-- Concatenation of the token surfaces, in order. -/
def concatSurfaces (ts : List Token) : String :=
  ts.foldr (fun t acc => t.surface ++ acc) ""

/-- Concatenation of raw word-segmenter pieces, in order. -/
def rawConcat (rs : List RawSeg) : String :=
  rs.foldr (fun r acc => r.segment ++ acc) ""

/-- Concatenation of the display segments' text fields, in order. -/
def segConcat (segs : List Segment) : String :=
  segs.foldr (fun s acc => s.segment ++ acc) ""

/-- Contiguity check: starting at `pos`, each segment begins where the
previous one ended, spans exactly its own text length, and the last one
ends at `total`. -/
def chainFrom (pos total : Nat) : List Segment → Bool
  | [] => pos == total
  | s :: rest =>
      pos == s.startCharIndex &&
      s.endCharIndex == s.startCharIndex + s.segment.length &&
      chainFrom s.endCharIndex total rest

lemma tokenSegsFrom_chain (ts : List Token) (pos idx : Nat) :
    chainFrom pos (pos + (concatSurfaces ts).length) (tokenSegsFrom ts pos idx) = true ∧
    segConcat (tokenSegsFrom ts pos idx) = concatSurfaces ts := by
  induction ts generalizing pos idx with
  | nil => simp [tokenSegsFrom, chainFrom, concatSurfaces, segConcat]
  | cons t ts ih =>
      have hlen : (concatSurfaces (t :: ts)).length =
          t.surface.length + (concatSurfaces ts).length := by
        simp [concatSurfaces, String.length_append]
      constructor
      · simp only [tokenSegsFrom, chainFrom, hlen, Bool.and_eq_true, beq_iff_eq]
        refine And.intro (by simp) ?_
        have := (ih (pos + t.surface.length) (idx + 1)).1
        simpa [Nat.add_assoc] using this
      · simp only [tokenSegsFrom, segConcat, List.foldr]
        have := (ih (pos + t.surface.length) (idx + 1)).2
        simp only [segConcat] at this
        rw [this]
        simp [concatSurfaces]

lemma fallbackSegsFrom_chain (rs : List RawSeg) (pos : Nat) :
    chainFrom pos (pos + (rawConcat rs).length) (fallbackSegsFrom rs pos) = true ∧
    segConcat (fallbackSegsFrom rs pos) = rawConcat rs := by
  induction rs generalizing pos with
  | nil => simp [fallbackSegsFrom, chainFrom, rawConcat, segConcat]
  | cons r rs ih =>
      have hlen : (rawConcat (r :: rs)).length =
          r.segment.length + (rawConcat rs).length := by
        simp [rawConcat, String.length_append]
      constructor
      · simp only [fallbackSegsFrom, chainFrom, hlen, Bool.and_eq_true, beq_iff_eq]
        refine And.intro (by simp) ?_
        have := (ih (pos + r.segment.length)).1
        simpa [Nat.add_assoc] using this
      · simp only [fallbackSegsFrom, segConcat, List.foldr]
        have := (ih (pos + r.segment.length)).2
        simp only [segConcat] at this
        rw [this]
        simp [rawConcat]

/-- Little-endian bytes written by `DataView.setUint16` (truncates the
value to 16 bits). -/
def u16le (v : Nat) : List Nat :=
  [v % 256, v / 256 % 256]

/-- Little-endian bytes written by `DataView.setUint32` (truncates the
value to 32 bits). -/
def u32le (v : Nat) : List Nat :=
  [v % 256, v / 256 % 256, v / 65536 % 256, v / 16777216 % 256]

/-- The `pcmToWav` encoder: a fixed 44-byte RIFF/WAVE header followed by
the PCM payload verbatim.  ASCII tags are the byte values the source's
`writeString` emits; numeric fields are little-endian per `DataView`. -/
def pcmToWav (pcmData : List Nat) (sampleRate : Nat) : List Nat :=
  let numChannels := 1
  let bitsPerSample := 16
  let byteRate := sampleRate * numChannels * bitsPerSample / 8
  let blockAlign := numChannels * bitsPerSample / 8
  let dataSize := pcmData.length
  [82, 73, 70, 70] ++ u32le (36 + dataSize) ++ [87, 65, 86, 69] ++
  [102, 109, 116, 32] ++ u32le 16 ++ u16le 1 ++ u16le numChannels ++
  u32le sampleRate ++ u32le byteRate ++ u16le blockAlign ++
  u16le bitsPerSample ++ [100, 97, 116, 97] ++ u32le dataSize ++ pcmData

/-- Read a little-endian 16-bit field at byte offset `off`. -/
def readU16le (bs : List Nat) (off : Nat) : Nat :=
  bs.getD off 0 + 256 * bs.getD (off + 1) 0

/-- Read a little-endian 32-bit field at byte offset `off`. -/
def readU32le (bs : List Nat) (off : Nat) : Nat :=
  bs.getD off 0 + 256 * bs.getD (off + 1) 0 +
  65536 * bs.getD (off + 2) 0 + 16777216 * bs.getD (off + 3) 0

lemma u32_split_roundtrip (v : Nat) (h : v < 4294967296) :
    v % 256 + 256 * (v / 256 % 256) + 65536 * (v / 65536 % 256) +
      16777216 * (v / 16777216 % 256) = v := by
  omega

/-- History item (`HistoryItem` in the source's types module).
`tokens` and `playbackRate` are optional in the source. -/
structure HistoryItem where
  id : String
  text : String
  tokens : Option (List Token)
  createdAt : Nat
  lastPosition : ℚ
  repeatMode : Nat
  playbackRate : Option ℚ
deriving Repr, DecidableEq

/-- Placeholder used for the unreachable out-of-bounds read after a
successful `findIndex`. -/
def dummyItem : HistoryItem :=
  { id := "", text := "", tokens := none, createdAt := 0,
    lastPosition := 0, repeatMode := 1, playbackRate := none }

/-- The create-or-update-by-content logic of `handleGenerate`: find an
item with identical text; if found, refresh `createdAt`, keep prior
tokens unless the new analysis is non-empty, and splice it to the front;
otherwise prepend a fresh item.  Returns the item made active together
with the new collection, as the source does via `newItem` and
`setHistory`. -/
def createOrUpdate (history : List HistoryItem) (text : String)
    (tokens : List Token) (now : Nat) (freshId : String) :
    HistoryItem × List HistoryItem :=
  match history.findIdx? (fun h => h.text == text) with
  | some i =>
      let old := history.getD i dummyItem
      let newItem :=
        { old with
          createdAt := now,
          tokens := if 0 < tokens.length then some tokens else old.tokens }
      (newItem, newItem :: history.eraseIdx i)
  | none =>
      let newItem : HistoryItem :=
        { id := freshId, text := text, tokens := some tokens,
          createdAt := now, lastPosition := 0, repeatMode := 1,
          playbackRate := some 1 }
      (newItem, newItem :: history)

/-- Number of items in the collection whose text equals `text`. -/
def countText (history : List HistoryItem) (text : String) : Nat :=
  (history.filter (fun h => h.text == text)).length

/-- Player component state (the useState hooks of `Player`, plus
`audioLoaded` standing for a non-null `audioRef.current`). -/
structure PlayerState where
  audioLoaded : Bool
  isPlaying : Bool
  currentTime : ℚ
  duration : ℚ
  repeatMode : Nat
  playbackRate : ℚ
  currentRepeatCount : Nat
  showRepeatMenu : Bool
  showSpeedMenu : Bool
deriving Repr, DecidableEq

/-- The `handleEnded` callback: while the repeat budget remains, advance
the iteration counter, rewind to 0 and keep playing (the element's
`play()` fires `onPlay`, which sets the playing flag); otherwise stop,
reset the counter to 1 and rewind to 0. -/
def handleEnded (s : PlayerState) : PlayerState :=
  if s.currentRepeatCount < s.repeatMode then
    { s with
      currentRepeatCount := s.currentRepeatCount + 1,
      currentTime := 0,
      isPlaying := true }
  else
    { s with
      isPlaying := false,
      currentRepeatCount := 1,
      currentTime := 0 }

/-- The `handleWordClick` callback: no-op without audio or with zero
duration; otherwise seek to the linear estimate
`(startCharIndex / totalChars) * duration` and start playback when not
already playing. -/
def handleWordClick (s : PlayerState) (totalChars : Nat) (seg : Segment) :
    PlayerState :=
  if ¬s.audioLoaded ∨ s.duration = 0 then s
  else
    let estimatedStartTime :=
      ((seg.startCharIndex : ℚ) / (totalChars : ℚ)) * s.duration
    let s1 := { s with currentTime := estimatedStartTime }
    if ¬s1.isPlaying then { s1 with isPlaying := true } else s1

/-- The `isSegmentActive` check: false at zero duration, else true
exactly when the unrounded character progress
`(currentTime / duration) * totalChars` lies in
`[startCharIndex, endCharIndex)`. -/
def isSegmentActive (s : PlayerState) (totalChars : Nat) (seg : Segment) :
    Bool :=
  if s.duration = 0 then false
  else
    let progress := s.currentTime / s.duration
    let charProgress := progress * (totalChars : ℚ)
    decide ((seg.startCharIndex : ℚ) ≤ charProgress) &&
      decide (charProgress < (seg.endCharIndex : ℚ))

/-- The `handleTimeUpdate` callback: record the new time and report
whether a progress-persist call (`onUpdateProgress`) was made, which the
source gates on `Math.floor(time) % 2 === 0`. -/
def handleTimeUpdate (s : PlayerState) (time : ℚ) : PlayerState × Bool :=
  if s.audioLoaded then
    ({ s with currentTime := time }, decide (⌊time⌋ % 2 = 0))
  else (s, false)

/-- Whether a given time-advance tick emits a progress-persist event. -/
def emitsPersist (s : PlayerState) (time : ℚ) : Bool :=
  (handleTimeUpdate s time).2

/-- Number of progress-persist events emitted over a list of tick
times. -/
def persistCount (s : PlayerState) (ticks : List ℚ) : Nat :=
  (ticks.filter (fun t => emitsPersist s t)).length

/-- The payload of an `onUpdateProgress` call made by the Player. -/
structure ProgressUpdate where
  id : String
  progress : ℚ
  repeatMode : Nat
  playbackRate : ℚ
deriving Repr, DecidableEq

/-- The repeat-menu option click: set the repeat mode, close the menu,
and persist current progress with the new count.  The source performs no
other state change here. -/
def repeatMenuClick (s : PlayerState) (itemId : String) (count : Nat) :
    PlayerState × ProgressUpdate :=
  ({ s with repeatMode := count, showRepeatMenu := false },
   { id := itemId, progress := s.currentTime, repeatMode := count,
     playbackRate := s.playbackRate })

/-- Outcome of one promise as observed through `Promise.allSettled`. -/
inductive SettledResult (α : Type) where
  | fulfilled (value : α)
  | rejected (reason : String)
deriving Repr, DecidableEq

/-- The `analyzeJapaneseText` service seen from its caller: the raw
provider outcome is caught inside the function, which resolves with the
parsed tokens on success and with the empty list on any failure — it
never rejects. -/
def analyzeJapaneseText (outcome : Except String (List Token)) :
    SettledResult (List Token) :=
  match outcome with
  | Except.ok ts => SettledResult.fulfilled ts
  | Except.error _ => SettledResult.fulfilled []

/-- Whether the input is empty after trimming, i.e. consists only of
whitespace — the meaning of the source's `!inputText.trim()` guard.
Stated over the character list so that it evaluates by kernel
reduction. -/
def isBlankInput (s : String) : Bool :=
  s.toList.all (fun c => c.isWhitespace)

/-- App component state (the useState hooks of `App` that
`handleGenerate` touches). -/
structure AppState where
  history : List HistoryItem
  activeItem : Option HistoryItem
  audioUrl : Option String
  isLoading : Bool
  error : Option String
deriving Repr, DecidableEq

/-- The `handleGenerate` handler, at the point where both settled
results are in hand: an empty (after trim) input is ignored; a rejected
synthesis sets the error message and leaves history untouched; otherwise
the history is created-or-updated with the analysis tokens (empty when
analysis was rejected), the new item becomes active and the audio URL is
installed. -/
def handleGenerate (st : AppState) (inputText : String)
    (audioResult : SettledResult String)
    (analysisOutcome : Except String (List Token))
    (now : Nat) (freshId : String) : AppState :=
  if isBlankInput inputText then st
  else
    let st1 := { st with isLoading := true, error := none, audioUrl := none }
    match audioResult with
    | SettledResult.rejected reason =>
        { st1 with error := some reason, isLoading := false }
    | SettledResult.fulfilled url =>
        let tokens :=
          match analyzeJapaneseText analysisOutcome with
          | SettledResult.fulfilled ts => ts
          | SettledResult.rejected _ => []
        let res := createOrUpdate st1.history inputText tokens now freshId
        { st1 with
          history := res.2,
          activeItem := some res.1,
          audioUrl := some url,
          isLoading := false }

lemma pcmToWav_eq (pcm : List Nat) (R : Nat) :
    pcmToWav pcm R =
      82 :: 73 :: 70 :: 70 ::
      ((36 + pcm.length) % 256) :: ((36 + pcm.length) / 256 % 256) ::
      ((36 + pcm.length) / 65536 % 256) ::
      ((36 + pcm.length) / 16777216 % 256) ::
      87 :: 65 :: 86 :: 69 ::
      102 :: 109 :: 116 :: 32 ::
      16 :: 0 :: 0 :: 0 ::
      1 :: 0 ::
      1 :: 0 ::
      (R % 256) :: (R / 256 % 256) :: (R / 65536 % 256) ::
      (R / 16777216 % 256) ::
      (R * 16 / 8 % 256) :: (R * 16 / 8 / 256 % 256) ::
      (R * 16 / 8 / 65536 % 256) :: (R * 16 / 8 / 16777216 % 256) ::
      2 :: 0 ::
      16 :: 0 ::
      100 :: 97 :: 116 :: 97 ::
      (pcm.length % 256) :: (pcm.length / 256 % 256) ::
      (pcm.length / 65536 % 256) :: (pcm.length / 16777216 % 256) :: pcm := by
  simp [pcmToWav, u16le, u32le]

/-- C2: for every raw PCM byte sequence (including the empty one) and
every sample rate, the encoder emits exactly 44 header bytes plus the
payload; the little-endian header declares total size `36 + L` at offset
4, PCM format tag 1 at offset 20, one channel at offset 22, the sample
rate at offset 24, byte rate `R * 1 * 16/8` at offset 28, block align
`1 * 16/8` at offset 32, 16 bits per sample at offset 34, and data size
`L` at offset 40; the payload is copied verbatim from offset 44.  The
two bounds reflect that `DataView.setUint32` stores 32-bit values. -/
theorem C2_pcmToWav_header (pcm : List Nat) (R : Nat)
    (hL : 36 + pcm.length < 4294967296) (hR : R * 2 < 4294967296) :
    (pcmToWav pcm R).length = 44 + pcm.length ∧
    readU32le (pcmToWav pcm R) 4 = 36 + pcm.length ∧
    readU16le (pcmToWav pcm R) 20 = 1 ∧
    readU16le (pcmToWav pcm R) 22 = 1 ∧
    readU32le (pcmToWav pcm R) 24 = R ∧
    readU32le (pcmToWav pcm R) 28 = R * 1 * 16 / 8 ∧
    readU16le (pcmToWav pcm R) 32 = 1 * 16 / 8 ∧
    readU16le (pcmToWav pcm R) 34 = 16 ∧
    readU32le (pcmToWav pcm R) 40 = pcm.length ∧
    (pcmToWav pcm R).drop 44 = pcm := by
  rw [pcmToWav_eq]
  refine ⟨by simp; omega, ?_, rfl, rfl, ?_, ?_, rfl, rfl, ?_, rfl⟩
  · show (36 + pcm.length) % 256 + 256 * ((36 + pcm.length) / 256 % 256) +
      65536 * ((36 + pcm.length) / 65536 % 256) +
      16777216 * ((36 + pcm.length) / 16777216 % 256) = 36 + pcm.length
    omega
  · show R % 256 + 256 * (R / 256 % 256) + 65536 * (R / 65536 % 256) +
      16777216 * (R / 16777216 % 256) = R
    omega
  · show R * 16 / 8 % 256 + 256 * (R * 16 / 8 / 256 % 256) +
      65536 * (R * 16 / 8 / 65536 % 256) +
      16777216 * (R * 16 / 8 / 16777216 % 256) = R * 1 * 16 / 8
    omega
  · show pcm.length % 256 + 256 * (pcm.length / 256 % 256) +
      65536 * (pcm.length / 65536 % 256) +
      16777216 * (pcm.length / 16777216 % 256) = pcm.length
    omega

/-- Witness for C2 at a three-byte payload and the source's 24 kHz
sample rate. -/
theorem C2_pcmToWav_header_witness :
    (pcmToWav [7, 8, 9] 24000).length = 47 ∧
    readU32le (pcmToWav [7, 8, 9] 24000) 4 = 39 ∧
    readU16le (pcmToWav [7, 8, 9] 24000) 20 = 1 ∧
    readU16le (pcmToWav [7, 8, 9] 24000) 22 = 1 ∧
    readU32le (pcmToWav [7, 8, 9] 24000) 24 = 24000 ∧
    readU32le (pcmToWav [7, 8, 9] 24000) 28 = 48000 ∧
    readU16le (pcmToWav [7, 8, 9] 24000) 32 = 2 ∧
    readU16le (pcmToWav [7, 8, 9] 24000) 34 = 16 ∧
    readU32le (pcmToWav [7, 8, 9] 24000) 40 = 3 ∧
    (pcmToWav [7, 8, 9] 24000).drop 44 = [7, 8, 9] :=
  C2_pcmToWav_header [7, 8, 9] 24000 (by norm_num) (by norm_num)

lemma fallbackSegments_tiles (text : String)
    (segmenter : Option (String → List RawSeg))
    (hSeg : ∀ f, segmenter = some f → rawConcat (f text) = text) :
    chainFrom 0 text.length (fallbackSegments text segmenter) = true ∧
    segConcat (fallbackSegments text segmenter) = text := by
  by_cases he : text.isEmpty
  · have : text = "" := (String.isEmpty_iff text).1 he
    subst this
    simp [fallbackSegments, he, chainFrom, segConcat]
  · cases hseg : segmenter with
    | none =>
        simp only [fallbackSegments, if_neg he, hseg]
        constructor
        · simp [chainFrom]
        · simp only [segConcat, List.foldr]
          exact String.append_empty text
    | some f =>
        have hc := hSeg f hseg
        have h := fallbackSegsFrom_chain (f text) 0
        simp only [fallbackSegments, if_neg he, hseg]
        rw [hc] at h
        exact ⟨by simpa using h.1, h.2⟩

/-- C1: on all three segmentation paths — analyzer tokens whose surfaces
concatenate to the text (the analyzer contract, a hypothesis here),
the locale-aware word-segmenter fallback (whose exhaustiveness over the
text is the platform contract, the second hypothesis), and the degraded
single-segment path — the produced segments are contiguous and ordered:
the first starts at 0, each ends where the next starts, the last ends at
the total character count, and concatenating the segment texts in order
reproduces the original text. -/
theorem C1_segments_tile (text : String) (tokens : Option (List Token))
    (segmenter : Option (String → List RawSeg))
    (hTok : ∀ ts, tokens = some ts → 0 < ts.length → concatSurfaces ts = text)
    (hSeg : ∀ f, segmenter = some f → rawConcat (f text) = text) :
    chainFrom 0 text.length (playerSegments text tokens segmenter) = true ∧
    segConcat (playerSegments text tokens segmenter) = text := by
  cases htok : tokens with
  | none => exact fallbackSegments_tiles text segmenter hSeg
  | some ts =>
      by_cases hlen : 0 < ts.length
      · have hc := hTok ts htok hlen
        have h := tokenSegsFrom_chain ts 0 0
        rw [hc] at h
        simp only [playerSegments, if_pos hlen]
        exact ⟨by simpa using h.1, h.2⟩
      · simp only [playerSegments, if_neg hlen]
        exact fallbackSegments_tiles text segmenter hSeg

/-- Witness for C1 on the token path with two tokens covering the text,
and no platform segmenter. -/
theorem C1_segments_tile_witness :
    chainFrom 0 ("ab".length)
      (playerSegments "ab" (some [⟨"a", none⟩, ⟨"b", some "x"⟩]) none) = true ∧
    segConcat (playerSegments "ab" (some [⟨"a", none⟩, ⟨"b", some "x"⟩]) none)
      = "ab" :=
  C1_segments_tile "ab" (some [⟨"a", none⟩, ⟨"b", some "x"⟩]) none
    (by intro ts h hl; cases h; decide)
    (by intro f h; cases h)

lemma countText_cons_pos (h : HistoryItem) (t : List HistoryItem)
    (text : String) (hp : h.text = text) :
    countText (h :: t) text = countText t text + 1 := by
  simp [countText, List.filter_cons, hp]

lemma countText_cons_neg (h : HistoryItem) (t : List HistoryItem)
    (text : String) (hp : h.text ≠ text) :
    countText (h :: t) text = countText t text := by
  simp [countText, List.filter_cons, hp]

lemma countText_zero_not_mem (l : List HistoryItem) (text : String)
    (hc : countText l text = 0) (x : HistoryItem) (hx : x ∈ l) :
    x.text ≠ text := by
  intro hxt
  have : x ∈ l.filter (fun h => h.text == text) :=
    List.mem_filter.2 ⟨hx, by simp [hxt]⟩
  have : 0 < countText l text := by
    simpa [countText] using List.length_pos.2 (List.ne_nil_of_mem this)
  omega

lemma find_structure (l : List HistoryItem) (text : String)
    (old : HistoryItem) (hmem : old ∈ l) (htext : old.text = text)
    (hdup : countText l text ≤ 1) :
    ∃ i, l.findIdx? (fun h => h.text == text) = some i ∧
      l.getD i dummyItem = old ∧
      countText (l.eraseIdx i) text = 0 := by
  induction l with
  | nil => cases hmem
  | cons h t ih =>
      by_cases hp : h.text = text
      · have hct : countText t text = 0 := by
          have := countText_cons_pos h t text hp
          omega
        have hold : old = h := by
          rcases List.mem_cons.1 hmem with h1 | h2
          · exact h1
          · exact absurd htext (countText_zero_not_mem t text hct old h2)
        refine ⟨0, ?_, ?_, ?_⟩
        · rw [List.findIdx?_cons, if_pos (by simp [hp])]
        · simp [hold]
        · simpa [List.eraseIdx] using hct
      · have hmem' : old ∈ t := by
          rcases List.mem_cons.1 hmem with h1 | h2
          · exact absurd (h1 ▸ htext) hp
          · exact h2
        have hdup' : countText t text ≤ 1 := by
          have := countText_cons_neg h t text hp
          omega
        obtain ⟨i, hfind, hget, hcount⟩ := ih hmem' hdup'
        refine ⟨i + 1, ?_, ?_, ?_⟩
        · rw [List.findIdx?_cons, if_neg (by simp [hp]), List.findIdx?_succ,
            hfind]
          rfl
        · simpa [List.getD_cons_succ] using hget
        · rw [show (h :: t).eraseIdx (i + 1) = h :: t.eraseIdx i from rfl]
          rw [countText_cons_neg _ _ _ hp]
          exact hcount

lemma createOrUpdate_found (history : List HistoryItem) (text : String)
    (tokens : List Token) (now : Nat) (fid : String) (old : HistoryItem)
    (hmem : old ∈ history) (htext : old.text = text)
    (hdup : countText history text ≤ 1) :
    ∃ rest : List HistoryItem,
      createOrUpdate history text tokens now fid =
        ({ old with
           createdAt := now,
           tokens := if 0 < tokens.length then some tokens else old.tokens },
         { old with
           createdAt := now,
           tokens := if 0 < tokens.length then some tokens else old.tokens }
           :: rest) ∧
      countText rest text = 0 := by
  obtain ⟨i, hfind, hget, hcount⟩ := find_structure history text old hmem htext hdup
  refine ⟨history.eraseIdx i, ?_, hcount⟩
  simp only [createOrUpdate, hfind, hget]

lemma createOrUpdate_not_found (history : List HistoryItem) (text : String)
    (tokens : List Token) (now : Nat) (fid : String)
    (habs : ∀ x ∈ history, x.text ≠ text) :
    createOrUpdate history text tokens now fid =
      ({ id := fid, text := text, tokens := some tokens, createdAt := now,
         lastPosition := 0, repeatMode := 1, playbackRate := some 1 },
       { id := fid, text := text, tokens := some tokens, createdAt := now,
         lastPosition := 0, repeatMode := 1, playbackRate := some 1 }
         :: history) := by
  have hnone : history.findIdx? (fun h => h.text == text) = none := by
    rw [List.findIdx?_eq_none_iff]
    intro x hx
    simp [habs x hx]
  simp only [createOrUpdate, hnone]

/-- C3: when an item with the submitted text exists (necessarily the
unique one, under the store's no-duplicate-text invariant), the updated
collection holds exactly one item with that text, placed at the front,
with `createdAt` from this call and `tokens` from whichever call
supplied a non-empty analysis; when no such item exists, a fresh item
with the given id, `lastPosition = 0`, `repeatMode = 1` and
`playbackRate = 1.0` is prepended. -/
theorem C3_createOrUpdate_dedup (history : List HistoryItem) (text : String)
    (tokens : List Token) (now : Nat) (fid : String)
    (hdup : countText history text ≤ 1) :
    (∀ old ∈ history, old.text = text →
      countText (createOrUpdate history text tokens now fid).2 text = 1 ∧
      ((createOrUpdate history text tokens now fid).2).head? =
        some { old with
               createdAt := now,
               tokens := if 0 < tokens.length then some tokens
                         else old.tokens }) ∧
    ((∀ x ∈ history, x.text ≠ text) →
      createOrUpdate history text tokens now fid =
        ({ id := fid, text := text, tokens := some tokens, createdAt := now,
           lastPosition := 0, repeatMode := 1, playbackRate := some 1 },
         { id := fid, text := text, tokens := some tokens, createdAt := now,
           lastPosition := 0, repeatMode := 1, playbackRate := some 1 }
           :: history)) := by
  constructor
  · intro old hmem htext
    obtain ⟨rest, heq, hcount⟩ :=
      createOrUpdate_found history text tokens now fid old hmem htext hdup
    rw [heq]
    constructor
    · rw [countText_cons_pos _ _ _ (by simpa using htext), hcount]
    · rfl
  · intro habs
    exact createOrUpdate_not_found history text tokens now fid habs

/-- Witness for C3: a one-item history re-submitted with the same text
and a non-empty analysis; the item is rebuilt at the front with the new
tokens and timestamp. -/
theorem C3_createOrUpdate_dedup_witness :
    countText
      (createOrUpdate
        [{ id := "id0", text := "hello", tokens := none, createdAt := 5,
           lastPosition := 3, repeatMode := 10, playbackRate := some 2 }]
        "hello" [{ surface := "hello", reading := none }] 9 "id1").2
      "hello" = 1 ∧
    ((createOrUpdate
        [{ id := "id0", text := "hello", tokens := none, createdAt := 5,
           lastPosition := 3, repeatMode := 10, playbackRate := some 2 }]
        "hello" [{ surface := "hello", reading := none }] 9 "id1").2).head? =
      some { id := "id0", text := "hello",
             tokens := some [{ surface := "hello", reading := none }],
             createdAt := 9, lastPosition := 3, repeatMode := 10,
             playbackRate := some 2 } := by
  have h :=
    (C3_createOrUpdate_dedup
      [{ id := "id0", text := "hello", tokens := none, createdAt := 5,
         lastPosition := 3, repeatMode := 10, playbackRate := some 2 }]
      "hello" [{ surface := "hello", reading := none }] 9 "id1"
      (by decide)).1
      { id := "id0", text := "hello", tokens := none, createdAt := 5,
        lastPosition := 3, repeatMode := 10, playbackRate := some 2 }
      (by decide) (by decide)
  simpa using h

/-- C10: re-submitting an existing text preserves every field of the
matched item other than `createdAt` and `tokens` — its id, resume
position, repeat count and playback rate all survive. -/
theorem C10_resubmit_preserves_fields (history : List HistoryItem)
    (text : String) (tokens : List Token) (now : Nat) (fid : String)
    (old : HistoryItem) (hmem : old ∈ history) (htext : old.text = text)
    (hdup : countText history text ≤ 1) :
    ∃ item,
      ((createOrUpdate history text tokens now fid).2).head? = some item ∧
      item.id = old.id ∧
      item.text = old.text ∧
      item.lastPosition = old.lastPosition ∧
      item.repeatMode = old.repeatMode ∧
      item.playbackRate = old.playbackRate := by
  obtain ⟨rest, heq, hcount⟩ :=
    createOrUpdate_found history text tokens now fid old hmem htext hdup
  rw [heq]
  exact ⟨_, rfl, rfl, rfl, rfl, rfl, rfl⟩

/-- Witness for C10 at a one-item history with distinct field values. -/
theorem C10_resubmit_preserves_fields_witness :
    ∃ item,
      ((createOrUpdate
          [{ id := "a7", text := "t", tokens := none, createdAt := 1,
             lastPosition := 7, repeatMode := 30, playbackRate := some 3 }]
          "t" [] 2 "b8").2).head? = some item ∧
      item.id = "a7" ∧
      item.text = "t" ∧
      item.lastPosition = 7 ∧
      item.repeatMode = 30 ∧
      item.playbackRate = some 3 :=
  C10_resubmit_preserves_fields
    [{ id := "a7", text := "t", tokens := none, createdAt := 1,
       lastPosition := 7, repeatMode := 30, playbackRate := some 3 }]
    "t" [] 2 "b8"
    { id := "a7", text := "t", tokens := none, createdAt := 1,
      lastPosition := 7, repeatMode := 30, playbackRate := some 3 }
    (by decide) (by decide) (by decide)

/-- C4: on natural playback end, an iteration below the configured
repeat count increments the counter, rewinds to 0 and keeps playing;
otherwise the counter resets to 1, the position rewinds to 0 and
playback stops.  In particular with repeat count 5, iterations 1-4
resume and iteration 5 stops. -/
theorem C4_handleEnded_loop (s : PlayerState) :
    (s.currentRepeatCount < s.repeatMode →
      handleEnded s =
        { s with
          currentRepeatCount := s.currentRepeatCount + 1,
          currentTime := 0, isPlaying := true }) ∧
    (s.repeatMode ≤ s.currentRepeatCount →
      handleEnded s =
        { s with
          isPlaying := false, currentRepeatCount := 1, currentTime := 0 }) ∧
    (s.repeatMode = 5 →
      (∀ i, 1 ≤ i → i ≤ 4 →
        handleEnded { s with currentRepeatCount := i } =
          { s with
            currentRepeatCount := i + 1, currentTime := 0,
            isPlaying := true }) ∧
      handleEnded { s with currentRepeatCount := 5 } =
        { s with
          isPlaying := false, currentRepeatCount := 1, currentTime := 0 }) := by
  refine ⟨fun h => ?_, fun h => ?_, fun h5 => ⟨fun i h1 h4 => ?_, ?_⟩⟩
  · rw [handleEnded, if_pos h]
  · rw [handleEnded, if_neg (by omega)]
  · rw [handleEnded, if_pos (by simp [h5]; omega)]
  · rw [handleEnded, if_neg (by simp [h5])]

/-- Witness for C4 at iteration 3 of a 5-loop configuration. -/
theorem C4_handleEnded_loop_witness :
    handleEnded
      { audioLoaded := true, isPlaying := true, currentTime := 4,
        duration := 10, repeatMode := 5, playbackRate := 1,
        currentRepeatCount := 3, showRepeatMenu := false,
        showSpeedMenu := false } =
      { audioLoaded := true, isPlaying := true, currentTime := 0,
        duration := 10, repeatMode := 5, playbackRate := 1,
        currentRepeatCount := 4, showRepeatMenu := false,
        showSpeedMenu := false } := by
  have h :=
    (C4_handleEnded_loop
      { audioLoaded := true, isPlaying := true, currentTime := 4,
        duration := 10, repeatMode := 5, playbackRate := 1,
        currentRepeatCount := 3, showRepeatMenu := false,
        showSpeedMenu := false }).1 (by decide)
  simpa using h

/-- C5: with the synthesis and analysis settled results in hand, an
analysis failure never blocks the generation — the run proceeds exactly
as with an empty token list, no error is surfaced and the audio URL is
installed — while a synthesis failure is fatal: the error is surfaced
and the history collection is left untouched.  The analysis service
itself always fulfills (failures are caught and become the empty token
list). -/
theorem C5_generation_error_policy (st : AppState) (inputText : String)
    (now : Nat) (fid : String) (hne : isBlankInput inputText = false) :
    (∀ url e,
      handleGenerate st inputText (SettledResult.fulfilled url)
          (Except.error e) now fid =
        handleGenerate st inputText (SettledResult.fulfilled url)
          (Except.ok []) now fid ∧
      (handleGenerate st inputText (SettledResult.fulfilled url)
          (Except.error e) now fid).error = none ∧
      (handleGenerate st inputText (SettledResult.fulfilled url)
          (Except.error e) now fid).audioUrl = some url ∧
      (handleGenerate st inputText (SettledResult.fulfilled url)
          (Except.error e) now fid).history =
        (createOrUpdate st.history inputText [] now fid).2) ∧
    (∀ reason analysis,
      (handleGenerate st inputText (SettledResult.rejected reason)
          analysis now fid).error = some reason ∧
      (handleGenerate st inputText (SettledResult.rejected reason)
          analysis now fid).history = st.history ∧
      (handleGenerate st inputText (SettledResult.rejected reason)
          analysis now fid).audioUrl = none) ∧
    (∀ outcome, ∃ ts, analyzeJapaneseText outcome =
      SettledResult.fulfilled ts) := by
  refine ⟨fun url e => ?_, fun reason analysis => ?_, fun outcome => ?_⟩
  · simp [handleGenerate, hne, analyzeJapaneseText]
  · simp [handleGenerate, hne]
  · cases outcome <;> exact ⟨_, rfl⟩

/-- Witness for C5: a concrete failed analysis next to a successful
synthesis, and a failed synthesis next to a successful analysis. -/
theorem C5_generation_error_policy_witness :
    (handleGenerate
        { history := [], activeItem := none, audioUrl := none,
          isLoading := false, error := none }
        "abc" (SettledResult.fulfilled "blob:u") (Except.error "schema")
        3 "f1" =
      handleGenerate
        { history := [], activeItem := none, audioUrl := none,
          isLoading := false, error := none }
        "abc" (SettledResult.fulfilled "blob:u") (Except.ok []) 3 "f1" ∧
      (handleGenerate
        { history := [], activeItem := none, audioUrl := none,
          isLoading := false, error := none }
        "abc" (SettledResult.fulfilled "blob:u") (Except.error "schema")
        3 "f1").error = none ∧
      (handleGenerate
        { history := [], activeItem := none, audioUrl := none,
          isLoading := false, error := none }
        "abc" (SettledResult.fulfilled "blob:u") (Except.error "schema")
        3 "f1").audioUrl = some "blob:u" ∧
      (handleGenerate
        { history := [], activeItem := none, audioUrl := none,
          isLoading := false, error := none }
        "abc" (SettledResult.fulfilled "blob:u") (Except.error "schema")
        3 "f1").history =
        (createOrUpdate [] "abc" [] 3 "f1").2) ∧
    ((handleGenerate
        { history := [], activeItem := none, audioUrl := none,
          isLoading := false, error := none }
        "abc" (SettledResult.rejected "boom") (Except.ok []) 3 "f1").error =
      some "boom" ∧
      (handleGenerate
        { history := [], activeItem := none, audioUrl := none,
          isLoading := false, error := none }
        "abc" (SettledResult.rejected "boom") (Except.ok []) 3 "f1").history =
        [] ∧
      (handleGenerate
        { history := [], activeItem := none, audioUrl := none,
          isLoading := false, error := none }
        "abc" (SettledResult.rejected "boom") (Except.ok []) 3 "f1").audioUrl =
        none) := by
  have h :=
    C5_generation_error_policy
      { history := [], activeItem := none, audioUrl := none,
        isLoading := false, error := none }
      "abc" 3 "f1" (by decide)
  exact ⟨h.1 "blob:u" "schema", (h.2.1 "boom" (Except.ok []))⟩

/-- C6: with audio loaded, positive duration and a non-empty text,
clicking a segment seeks to exactly `(startCharIndex / totalChars) *
duration` and ensures playback is running (it starts playback when
paused and keeps it running otherwise). -/
theorem C6_word_click_seeks (s : PlayerState) (totalChars : Nat)
    (seg : Segment) (hload : s.audioLoaded = true) (hdur : 0 < s.duration)
    (htc : 0 < totalChars) :
    handleWordClick s totalChars seg =
      { s with
        currentTime :=
          ((seg.startCharIndex : ℚ) / (totalChars : ℚ)) * s.duration,
        isPlaying := true } := by
  rcases s with ⟨al, ip, ct, d, rm, pr, crc, srm, ssm⟩
  simp only [PlayerState.audioLoaded] at hload
  subst hload
  simp only [PlayerState.duration] at hdur
  rw [handleWordClick, if_neg (by simp; exact ne_of_gt hdur)]
  cases ip <;> simp

/-- Witness for C6: duration 10 s, 100 characters, a segment starting at
character 20; the estimated start time is exactly 2 s. -/
theorem C6_word_click_seeks_witness :
    handleWordClick
      { audioLoaded := true, isPlaying := false, currentTime := 7,
        duration := 10, repeatMode := 1, playbackRate := 1,
        currentRepeatCount := 1, showRepeatMenu := false,
        showSpeedMenu := false } 100
      { segment := "word", reading := none, index := 3, input := "word",
        isWordLike := true, startCharIndex := 20, endCharIndex := 30 } =
      { audioLoaded := true, isPlaying := true, currentTime := 2,
        duration := 10, repeatMode := 1, playbackRate := 1,
        currentRepeatCount := 1, showRepeatMenu := false,
        showSpeedMenu := false } := by
  have h :=
    C6_word_click_seeks
      { audioLoaded := true, isPlaying := false, currentTime := 7,
        duration := 10, repeatMode := 1, playbackRate := 1,
        currentRepeatCount := 1, showRepeatMenu := false,
        showSpeedMenu := false } 100
      { segment := "word", reading := none, index := 3, input := "word",
        isWordLike := true, startCharIndex := 20, endCharIndex := 30 }
      rfl (by norm_num) (by norm_num)
  rw [h]
  simp only [PlayerState.mk.injEq]
  norm_num

/-- Modelled from the spec wording for comparison: the active segment as
the one whose `[startCharIndex, endCharIndex)` contains
`round((currentTime / duration) * totalChars)`. -/
def specRoundedActive (s : PlayerState) (totalChars : Nat)
    (seg : Segment) : Prop :=
  (seg.startCharIndex : ℤ) ≤
      round (s.currentTime / s.duration * (totalChars : ℚ)) ∧
  round (s.currentTime / s.duration * (totalChars : ℚ)) <
    (seg.endCharIndex : ℤ)

/-- Counterexample to C7: at currentTime 0.6, duration 1 and one total
character, the source's `isSegmentActive` highlights the segment
spanning `[0, 1)` (character progress 0.6 lies inside), while the
claimed rounded rule does not (`round 0.6 = 1` is outside `[0, 1)`).
The source compares the unrounded progress, not its rounding. -/
theorem C7_counterexample :
    isSegmentActive
      { audioLoaded := true, isPlaying := true, currentTime := 3/5,
        duration := 1, repeatMode := 1, playbackRate := 1,
        currentRepeatCount := 1, showRepeatMenu := false,
        showSpeedMenu := false } 1
      { segment := "a", reading := none, index := 0, input := "a",
        isWordLike := true, startCharIndex := 0, endCharIndex := 1 } =
      true ∧
    ¬ specRoundedActive
      { audioLoaded := true, isPlaying := true, currentTime := 3/5,
        duration := 1, repeatMode := 1, playbackRate := 1,
        currentRepeatCount := 1, showRepeatMenu := false,
        showSpeedMenu := false } 1
      { segment := "a", reading := none, index := 0, input := "a",
        isWordLike := true, startCharIndex := 0, endCharIndex := 1 } := by
  constructor
  · simp only [isSegmentActive]
    norm_num
  · simp only [specRoundedActive]
    norm_num [round_eq]

/-- C7 as amended: on a tick with non-zero duration, the active segment
is exactly the one whose `[startCharIndex, endCharIndex)` contains the
unrounded character progress `(currentTime / duration) * totalChars`;
with zero duration no segment is active and segment clicks are ignored
(click-to-seek disabled). -/
theorem C7_active_segment_unrounded (s : PlayerState) (totalChars : Nat)
    (seg : Segment) :
    (s.duration ≠ 0 →
      (isSegmentActive s totalChars seg = true ↔
        ((seg.startCharIndex : ℚ) ≤
            s.currentTime / s.duration * (totalChars : ℚ) ∧
         s.currentTime / s.duration * (totalChars : ℚ) <
           (seg.endCharIndex : ℚ)))) ∧
    (s.duration = 0 →
      isSegmentActive s totalChars seg = false ∧
      handleWordClick s totalChars seg = s) := by
  constructor
  · intro hd
    rw [isSegmentActive, if_neg hd]
    simp
  · intro hd
    constructor
    · rw [isSegmentActive, if_pos hd]
    · rw [handleWordClick, if_pos (Or.inr hd)]

/-- Witness for the amended C7: duration 2, currentTime 1, 4 characters,
a segment spanning `[1, 3)`; progress 2 lies inside, so the segment is
active. -/
theorem C7_active_segment_unrounded_witness :
    isSegmentActive
      { audioLoaded := true, isPlaying := true, currentTime := 1,
        duration := 2, repeatMode := 1, playbackRate := 1,
        currentRepeatCount := 1, showRepeatMenu := false,
        showSpeedMenu := false } 4
      { segment := "bc", reading := none, index := 1, input := "bc",
        isWordLike := true, startCharIndex := 1, endCharIndex := 3 } =
      true := by
  have h :=
    ((C7_active_segment_unrounded
      { audioLoaded := true, isPlaying := true, currentTime := 1,
        duration := 2, repeatMode := 1, playbackRate := 1,
        currentRepeatCount := 1, showRepeatMenu := false,
        showSpeedMenu := false } 4
      { segment := "bc", reading := none, index := 1, input := "bc",
        isWordLike := true, startCharIndex := 1, endCharIndex := 3 }).1
      (by norm_num)).2
  apply h
  norm_num

/-- Counterexample to C8: the claimed throttle — at most one persist
event per 2-second window of media time — fails on the source, which
persists on every tick whose floored time is even: two ticks at 0 s and
0.5 s both fall in the window `[0, 2)` and both persist. -/
theorem C8_counterexample :
    ¬ (∀ (s : PlayerState) (a : ℚ) (ticks : List ℚ),
        (∀ t ∈ ticks, a ≤ t ∧ t < a + 2) →
        persistCount s ticks ≤ 1) := by
  intro hclaim
  have e0 : emitsPersist
      { audioLoaded := true, isPlaying := true, currentTime := 0,
        duration := 10, repeatMode := 1, playbackRate := 1,
        currentRepeatCount := 1, showRepeatMenu := false,
        showSpeedMenu := false } 0 = true := by
    simp only [emitsPersist, handleTimeUpdate, if_pos rfl,
      decide_eq_true_eq]
    norm_num
  have e1 : emitsPersist
      { audioLoaded := true, isPlaying := true, currentTime := 0,
        duration := 10, repeatMode := 1, playbackRate := 1,
        currentRepeatCount := 1, showRepeatMenu := false,
        showSpeedMenu := false } (2⁻¹) = true := by
    simp only [emitsPersist, handleTimeUpdate, if_pos rfl,
      decide_eq_true_eq]
    norm_num
  have h2 :=
    hclaim
      { audioLoaded := true, isPlaying := true, currentTime := 0,
        duration := 10, repeatMode := 1, playbackRate := 1,
        currentRepeatCount := 1, showRepeatMenu := false,
        showSpeedMenu := false } 0 [0, 1/2]
      (by
        intro t ht
        simp only [List.mem_cons, List.mem_singleton] at ht
        rcases ht with rfl | rfl | h
        · norm_num
        · norm_num
        · cases h)
  rw [show persistCount
      { audioLoaded := true, isPlaying := true, currentTime := 0,
        duration := 10, repeatMode := 1, playbackRate := 1,
        currentRepeatCount := 1, showRepeatMenu := false,
        showSpeedMenu := false } [0, 1/2] = 2 from by
    simp [persistCount, List.filter_cons, e0, e1]] at h2
  omega

/-- C8 as amended: a time-advance tick persists progress exactly when
audio is loaded and the floored media time is even.  Hence every tick
inside an even-numbered second persists (so a 2-second window can see
many persist events), while ticks inside an odd-numbered second never
persist — the gate skips odd seconds rather than spacing events 2
seconds apart. -/
theorem C8_persist_parity (s : PlayerState) (hload : s.audioLoaded = true)
    (k : ℤ) (ticks : List ℚ) :
    (∀ t : ℚ, emitsPersist s t = decide (⌊t⌋ % 2 = 0)) ∧
    ((∀ t ∈ ticks, (2 * k : ℚ) ≤ t ∧ t < 2 * k + 1) →
      persistCount s ticks = ticks.length) ∧
    ((∀ t ∈ ticks, (2 * k + 1 : ℚ) ≤ t ∧ t < 2 * k + 2) →
      persistCount s ticks = 0) := by
  have hemit : ∀ t : ℚ, emitsPersist s t = decide (⌊t⌋ % 2 = 0) := by
    intro t
    simp [emitsPersist, handleTimeUpdate, hload]
  refine ⟨hemit, fun heven => ?_, fun hodd => ?_⟩
  · have hall : ∀ t ∈ ticks, emitsPersist s t = true := by
      intro t ht
      obtain ⟨h1, h2⟩ := heven t ht
      have hfl : ⌊t⌋ = 2 * k := by
        rw [Int.floor_eq_iff]
        constructor
        · exact_mod_cast h1
        · push_cast
          exact h2
      rw [hemit t, hfl, decide_eq_true_eq]
      omega
    unfold persistCount
    rw [List.filter_eq_self.2 hall]
  · have hall : ∀ t ∈ ticks, ¬ emitsPersist s t = true := by
      intro t ht
      obtain ⟨h1, h2⟩ := hodd t ht
      have hfl : ⌊t⌋ = 2 * k + 1 := by
        rw [Int.floor_eq_iff]
        constructor
        · exact_mod_cast h1
        · push_cast
          linarith
      rw [hemit t, hfl, decide_eq_true_eq]
      omega
    unfold persistCount
    rw [List.filter_eq_nil_iff.2 hall]
    rfl

/-- Witness for the amended C8: one tick at 2.25 s (inside the even
second `[2, 3)`) persists, and one tick at 1.5 s (inside the odd second
`[1, 2)`) does not. -/
theorem C8_persist_parity_witness :
    persistCount
      { audioLoaded := true, isPlaying := true, currentTime := 0,
        duration := 10, repeatMode := 1, playbackRate := 1,
        currentRepeatCount := 1, showRepeatMenu := false,
        showSpeedMenu := false } [9/4] = 1 ∧
    persistCount
      { audioLoaded := true, isPlaying := true, currentTime := 0,
        duration := 10, repeatMode := 1, playbackRate := 1,
        currentRepeatCount := 1, showRepeatMenu := false,
        showSpeedMenu := false } [3/2] = 0 := by
  constructor
  · have h :=
      (C8_persist_parity
        { audioLoaded := true, isPlaying := true, currentTime := 0,
          duration := 10, repeatMode := 1, playbackRate := 1,
          currentRepeatCount := 1, showRepeatMenu := false,
          showSpeedMenu := false } rfl 1 [9/4]).2.1
        (by
          intro t ht
          simp only [List.mem_singleton] at ht
          subst ht
          norm_num)
    simpa using h
  · exact
      (C8_persist_parity
        { audioLoaded := true, isPlaying := true, currentTime := 0,
          duration := 10, repeatMode := 1, playbackRate := 1,
          currentRepeatCount := 1, showRepeatMenu := false,
          showSpeedMenu := false } rfl 0 [3/2]).2.2
        (by
          intro t ht
          simp only [List.mem_singleton] at ht
          subst ht
          norm_num)

/-- Counterexample to C9: selecting an accepted repeat count (5) does
not reset the in-progress repeat iteration counter — with the counter at
3, it remains 3 after the click, not 1. -/
theorem C9_counterexample :
    ¬ (∀ (s : PlayerState) (itemId : String) (n : Nat),
        (n = 1 ∨ n = 5 ∨ n = 10 ∨ n = 30) →
        ((repeatMenuClick s itemId n).1.repeatMode = n ∧
         (repeatMenuClick s itemId n).1.currentRepeatCount = 1)) := by
  intro hclaim
  have h :=
    (hclaim
      { audioLoaded := true, isPlaying := true, currentTime := 4,
        duration := 10, repeatMode := 1, playbackRate := 1,
        currentRepeatCount := 3, showRepeatMenu := true,
        showSpeedMenu := false } "item0" 5 (by simp)).2
  rw [show (repeatMenuClick
      { audioLoaded := true, isPlaying := true, currentTime := 4,
        duration := 10, repeatMode := 1, playbackRate := 1,
        currentRepeatCount := 3, showRepeatMenu := true,
        showSpeedMenu := false } "item0" 5).1.currentRepeatCount = 3
    from rfl] at h
  omega

/-- C9 as amended: for every accepted value in {1, 5, 10, 30}, the
repeat-menu click sets the configured repeat count to n, closes the
menu, and persists progress with the new count — but it leaves the
in-progress repeat iteration counter unchanged (no reset to 1 takes
place; the counter only resets when playback ends with the budget
exhausted). -/
theorem C9_set_repeat_count (s : PlayerState) (itemId : String) (n : Nat)
    (hn : n = 1 ∨ n = 5 ∨ n = 10 ∨ n = 30) :
    (repeatMenuClick s itemId n).1 =
      { s with repeatMode := n, showRepeatMenu := false } ∧
    (repeatMenuClick s itemId n).2 =
      { id := itemId, progress := s.currentTime, repeatMode := n,
        playbackRate := s.playbackRate } ∧
    (repeatMenuClick s itemId n).1.currentRepeatCount =
      s.currentRepeatCount := by
  exact ⟨rfl, rfl, rfl⟩

/-- Witness for the amended C9 at n = 5 with the counter at 3. -/
theorem C9_set_repeat_count_witness :
    (repeatMenuClick
      { audioLoaded := true, isPlaying := true, currentTime := 4,
        duration := 10, repeatMode := 1, playbackRate := 2,
        currentRepeatCount := 3, showRepeatMenu := true,
        showSpeedMenu := false } "it" 5).1 =
      { audioLoaded := true, isPlaying := true, currentTime := 4,
        duration := 10, repeatMode := 5, playbackRate := 2,
        currentRepeatCount := 3, showRepeatMenu := false,
        showSpeedMenu := false } ∧
    (repeatMenuClick
      { audioLoaded := true, isPlaying := true, currentTime := 4,
        duration := 10, repeatMode := 1, playbackRate := 2,
        currentRepeatCount := 3, showRepeatMenu := true,
        showSpeedMenu := false } "it" 5).2 =
      { id := "it", progress := 4, repeatMode := 5, playbackRate := 2 } := by
  have h :=
    C9_set_repeat_count
      { audioLoaded := true, isPlaying := true, currentTime := 4,
        duration := 10, repeatMode := 1, playbackRate := 2,
        currentRepeatCount := 3, showRepeatMenu := true,
        showSpeedMenu := false } "it" 5 (by simp)
  exact ⟨h.1, h.2.1⟩
